import Mathlib

/-!
Verification development for the Button component of the react-ui-lib-template
repository (src/src/components/Button/Button.tsx), shallowly embedded in Lean.

The component is a pure function from props to a rendered element:

  - `buttonVariants` / `buttonSizes` are object-literal lookup tables from the
    closed `variant` / `size` enumerations to Tailwind class strings;
  - the composed class string is the template literal
    `${baseClasses} ${variantClasses} ${sizeClasses} ${className}` followed by
    `.trim()`;
  - destructuring `{ variant = 'primary', size = 'medium', isLoading = false,
    disabled, className = '', children, ...props }` removes the recognized
    keys, and `{...props}` forwards the remainder onto the `<button>` element
    after the `className` and `disabled` attributes;
  - `disabled={disabled || isLoading}` and the spinner `<svg>` is rendered
    exactly when `isLoading` holds.

Props are modelled as an association list of string keys to values, so the
destructuring/spread behaviour (which keys are extracted, which are forwarded,
and which occurrence of an attribute wins on the element) is part of the model
rather than an assumption.
-/

set_option maxRecDepth 4096

namespace ButtonLib

/-- The `variant` prop's closed enumeration, from the `ButtonProps` interface. -/
inductive Variant where
  | primary
  | secondary
  | destructive
  | outline
  | ghost
deriving DecidableEq, BEq, Fintype, Repr

/-- The `size` prop's closed enumeration, from the `ButtonProps` interface. -/
inductive Size where
  | small
  | medium
  | large
deriving DecidableEq, BEq, Fintype, Repr

/-- The `buttonVariants` object literal: an association of each variant with
its Tailwind class fragment, in source order. -/
def buttonVariantsObj : List (Variant × String) :=
  [ (.primary, "bg-blue-600 text-white hover:bg-blue-700 focus:ring-blue-500"),
    (.secondary, "bg-gray-600 text-white hover:bg-gray-700 focus:ring-gray-500"),
    (.destructive, "bg-red-600 text-white hover:bg-red-700 focus:ring-red-500"),
    (.outline, "border-2 border-gray-300 text-gray-700 hover:bg-gray-50 focus:ring-gray-500"),
    (.ghost, "text-gray-700 hover:bg-gray-100 focus:ring-gray-500") ]

/-- The `buttonSizes` object literal, in source order. -/
def buttonSizesObj : List (Size × String) :=
  [ (.small, "px-3 py-1.5 text-sm"),
    (.medium, "px-4 py-2 text-base"),
    (.large, "px-6 py-3 text-lg") ]

/-- The object lookup `buttonVariants[variant]`; the `getD ""` default is the
JavaScript `undefined` fall-through, which the totality theorem shows is never
taken. -/
def buttonVariants (v : Variant) : String :=
  (buttonVariantsObj.lookup v).getD ""

/-- The object lookup `buttonSizes[size]`. -/
def buttonSizes (s : Size) : String :=
  (buttonSizesObj.lookup s).getD ""

/-- The `baseClasses` constant of the component body. -/
def baseClasses : String :=
  "inline-flex items-center justify-center font-medium rounded-md transition-colors focus:outline-none focus:ring-2 focus:ring-offset-2 disabled:opacity-50 disabled:pointer-events-none"

/-- Space test used by the trim and tokenization model; the only whitespace
occurring in the component's class strings is the plain space character. -/
def isSpaceChar (c : Char) : Bool := c == ' '

/-- Character-level model of JavaScript `String.prototype.trim`, for strings
whose whitespace is the space character: drop leading and trailing spaces. -/
def trimChars (l : List Char) : List Char :=
  ((l.dropWhile isSpaceChar).reverse.dropWhile isSpaceChar).reverse

/-- String-level trim, applied to the template literal in `combinedClasses`. -/
def strTrim (s : String) : String :=
  (trimChars s.toList).asString

/-- The `combinedClasses` template literal of the component body:
`${baseClasses} ${variantClasses} ${sizeClasses} ${className}` then `.trim()`. -/
def combinedClasses (variant : Variant) (size : Size) (className : String) : String :=
  strTrim (baseClasses ++ " " ++ buttonVariants variant ++ " " ++ buttonSizes size
    ++ " " ++ className)

/-- Splitter for class strings: the accumulator `cur` holds the characters of
the token currently being read, in reverse.  Runs of spaces separate tokens and
produce no empty tokens, matching how the DOM reads a `class` attribute. -/
def tokGo : List Char → List Char → List (List Char)
  | [], cur => if cur = [] then [] else [cur.reverse]
  | c :: cs, cur =>
    if isSpaceChar c then
      (if cur = [] then tokGo cs [] else cur.reverse :: tokGo cs [])
    else tokGo cs (c :: cur)

/-- The whitespace-separated tokens of a class string. -/
def tokensOf (s : String) : List String :=
  (tokGo s.toList []).map List.asString

/-- Values a prop can carry.  The TypeScript interface types the recognized
keys; renderable content (`children`) and event handlers (such as `onClick`)
are opaque and carried by an identifier. -/
inductive PropVal where
  | vVariant (v : Variant)
  | vSize (s : Size)
  | vBool (b : Bool)
  | vStr (s : String)
  | vNode (id : Nat)
  | vHandler (id : Nat)
deriving DecidableEq, Repr

/-- The props object, as an association list of keys to values. -/
abbrev Props : Type := List (String × PropVal)

/-- Destructuring `variant = 'primary'`: the default applies when the key is
absent (TypeScript makes a value of another shape impossible). -/
def getVariant (ps : Props) : Variant :=
  match ps.lookup "variant" with
  | some (.vVariant v) => v
  | _ => .primary

/-- Destructuring `size = 'medium'`. -/
def getSize (ps : Props) : Size :=
  match ps.lookup "size" with
  | some (.vSize s) => s
  | _ => .medium

/-- Destructuring `isLoading = false`. -/
def getIsLoading (ps : Props) : Bool :=
  match ps.lookup "isLoading" with
  | some (.vBool b) => b
  | _ => false

/-- Destructuring `disabled` (no default): an absent key is `undefined`, which
is falsy in `disabled || isLoading`, so the extracted boolean is `false`. -/
def getDisabled (ps : Props) : Bool :=
  match ps.lookup "disabled" with
  | some (.vBool b) => b
  | _ => false

/-- Destructuring `className = ''`. -/
def getClassName (ps : Props) : String :=
  match ps.lookup "className" with
  | some (.vStr s) => s
  | _ => ""

/-- The keys removed from the props object by the destructuring pattern. -/
def recognizedKeys : List String :=
  ["variant", "size", "isLoading", "disabled", "className", "children"]

/-- The `...props` rest object: every entry whose key is not destructured. -/
def restProps (ps : Props) : Props :=
  ps.filter (fun kv => decide (kv.1 ∉ recognizedKeys))

/-- A rendered child of the `<button>` element: the spinner `<svg>` fragment,
or pass-through renderable content. -/
inductive RNode where
  | spinner
  | content (v : PropVal)
deriving DecidableEq, Repr

/-- The rendered `<button>` element: its attribute list in JSX source order
and its child list. -/
structure Element where
  attrs : List (String × PropVal)
  children : List RNode
deriving DecidableEq, Repr

/-- The guard expression `disabled || isLoading` of the `disabled` attribute. -/
def effectiveDisabled (disabled isLoading : Bool) : Bool :=
  disabled || isLoading

/-- The `Button` component as a function from props to the rendered element:
`className={combinedClasses}`, `disabled={disabled || isLoading}`, then the
`{...props}` spread, with the spinner rendered exactly when `isLoading` and the
`children` content after it. -/
def Button (ps : Props) : Element :=
  { attrs :=
      ("className", .vStr (combinedClasses (getVariant ps) (getSize ps) (getClassName ps)))
        :: ("disabled", .vBool (effectiveDisabled (getDisabled ps) (getIsLoading ps)))
        :: restProps ps
  , children :=
      (if getIsLoading ps then [RNode.spinner] else [])
        ++ (match ps.lookup "children" with
            | some v => [RNode.content v]
            | none => []) }

/-- The value an attribute key takes on a rendered element: in JSX, an entry
written later (for instance via a spread) overrides an earlier one, so the
effective value is the last occurrence of the key. -/
def attrValue (k : String) (e : Element) : Option PropVal :=
  e.attrs.reverse.lookup k

/-- Modelled from the spec: the host (DOM) activation semantics, which are not
part of this repository's sources.  Dispatching `events` raw activation events
invokes the element's caller-supplied `onClick` callback once per event, except
that an element whose `disabled` attribute is true dispatches none of them. -/
def clickInvocations (e : Element) (events : Nat) : Nat :=
  match attrValue "onClick" e with
  | some (.vHandler _) =>
      if attrValue "disabled" e = some (.vBool true) then 0 else events
  | _ => 0

/-! Tokenizer lemmas: splitting a class string at a separating space, and
invariance of the token list under trimming. -/

theorem tokGo_append_space (b : List Char) :
    ∀ (a cur : List Char), tokGo (a ++ ' ' :: b) cur = tokGo a cur ++ tokGo b [] := by
  intro a
  induction a with
  | nil =>
    intro cur
    by_cases hcur : cur = [] <;> simp [tokGo, isSpaceChar, hcur]
  | cons c a ih =>
    intro cur
    by_cases hc : isSpaceChar c
    · by_cases hcur : cur = [] <;> simp [tokGo, hc, hcur, ih]
    · simp [tokGo, hc, ih]

theorem tokGo_all_space : ∀ {l : List Char}, (∀ c ∈ l, isSpaceChar c) → tokGo l [] = [] := by
  intro l
  induction l with
  | nil => intro _; rfl
  | cons c t ih =>
    intro h
    have hc : isSpaceChar c := h c (by simp)
    simp only [tokGo, hc, if_pos rfl, if_true]
    exact ih (fun x hx => h x (by simp [hx]))

theorem tokGo_spaces {sp : List Char} (h : ∀ c ∈ sp, isSpaceChar c) (cur : List Char) :
    tokGo sp cur = if cur = [] then [] else [cur.reverse] := by
  cases sp with
  | nil => rfl
  | cons c rest =>
    have hc : isSpaceChar c := h c (by simp)
    have hrest : tokGo rest [] = [] := tokGo_all_space (fun x hx => h x (by simp [hx]))
    by_cases hcur : cur = [] <;> simp [tokGo, hc, hcur, hrest]

theorem tokGo_append_spaces {sp : List Char} (h : ∀ c ∈ sp, isSpaceChar c) :
    ∀ (a cur : List Char), tokGo (a ++ sp) cur = tokGo a cur := by
  intro a
  induction a with
  | nil =>
    intro cur
    rw [List.nil_append, tokGo_spaces h]
    rfl
  | cons c a ih =>
    intro cur
    by_cases hc : isSpaceChar c
    · by_cases hcur : cur = [] <;> simp [tokGo, hc, hcur, ih]
    · simp [tokGo, hc, ih]

theorem tokGo_dropWhile_space : ∀ (l : List Char),
    tokGo (l.dropWhile isSpaceChar) [] = tokGo l [] := by
  intro l
  induction l with
  | nil => rfl
  | cons c t ih =>
    by_cases hc : isSpaceChar c
    · rw [List.dropWhile_cons_of_pos hc, ih]
      simp [tokGo, hc]
    · rw [List.dropWhile_cons_of_neg hc]

theorem mem_takeWhile_isSpace : ∀ {l : List Char} {c : Char},
    c ∈ l.takeWhile isSpaceChar → isSpaceChar c := by
  intro l
  induction l with
  | nil => intro c h; simp [List.takeWhile] at h
  | cons d t ih =>
    intro c h
    by_cases hd : isSpaceChar d
    · rw [List.takeWhile_cons_of_pos hd] at h
      rcases List.mem_cons.mp h with h | h
      · exact h ▸ hd
      · exact ih h
    · rw [List.takeWhile_cons_of_neg hd] at h
      simp at h

theorem tokGo_trimChars (l : List Char) : tokGo (trimChars l) [] = tokGo l [] := by
  have h1 : tokGo (l.dropWhile isSpaceChar) [] = tokGo l [] := tokGo_dropWhile_space l
  have hsplit :
      l.dropWhile isSpaceChar =
        trimChars l ++ ((l.dropWhile isSpaceChar).reverse.takeWhile isSpaceChar).reverse := by
    unfold trimChars
    conv_lhs => rw [← List.reverse_reverse (l.dropWhile isSpaceChar)]
    conv_lhs =>
      rw [← List.takeWhile_append_dropWhile isSpaceChar (l.dropWhile isSpaceChar).reverse]
    rw [List.reverse_append]
  have hsp : ∀ c ∈ ((l.dropWhile isSpaceChar).reverse.takeWhile isSpaceChar).reverse,
      isSpaceChar c := by
    intro c hc
    exact mem_takeWhile_isSpace (List.mem_reverse.mp hc)
  calc tokGo (trimChars l) []
      = tokGo (trimChars l ++
          ((l.dropWhile isSpaceChar).reverse.takeWhile isSpaceChar).reverse) [] :=
        (tokGo_append_spaces hsp _ _).symm
    _ = tokGo (l.dropWhile isSpaceChar) [] := by rw [← hsplit]
    _ = tokGo l [] := h1

theorem strToList_append (s t : String) : (s ++ t).toList = s.toList ++ t.toList := by
  cases s
  cases t
  rfl

theorem strToList_asString (l : List Char) : (l.asString).toList = l := rfl

theorem tokensOf_strTrim (s : String) : tokensOf (strTrim s) = tokensOf s := by
  unfold tokensOf strTrim
  rw [strToList_asString, tokGo_trimChars]

theorem tokensOf_append_space (s t : String) :
    tokensOf (s ++ " " ++ t) = tokensOf s ++ tokensOf t := by
  unfold tokensOf
  rw [strToList_append, strToList_append]
  have : s.toList ++ " ".toList ++ t.toList = s.toList ++ ' ' :: t.toList := by
    rw [List.append_assoc]
    rfl
  rw [this, tokGo_append_space, List.map_append]

theorem tokensOf_combinedClasses (v : Variant) (s : Size) (c : String) :
    tokensOf (combinedClasses v s c) =
      tokensOf baseClasses ++ tokensOf (buttonVariants v) ++ tokensOf (buttonSizes s)
        ++ tokensOf c := by
  unfold combinedClasses
  rw [tokensOf_strTrim, tokensOf_append_space, tokensOf_append_space, tokensOf_append_space]

/-! Attribute lemmas: what the rendered element carries for the recognized
attribute keys, under the later-entry-wins reading of JSX spreads. -/

theorem restProps_not_recognized {ps : Props} {kv : String × PropVal}
    (h : kv ∈ restProps ps) : kv.1 ∉ recognizedKeys := by
  unfold restProps at h
  exact of_decide_eq_true (List.mem_filter.mp h).2

theorem lookup_restProps_reverse (ps : Props) {k : String} (hk : k ∈ recognizedKeys) :
    ((restProps ps).reverse).lookup k = none := by
  rw [List.lookup_eq_none_iff]
  intro p hp
  have h1 : p.1 ∉ recognizedKeys := restProps_not_recognized (List.mem_reverse.mp hp)
  have h2 : k ≠ p.1 := fun he => h1 (he ▸ hk)
  simpa [bne_iff_ne] using h2

theorem attrValue_button_className (ps : Props) :
    attrValue "className" (Button ps) =
      some (PropVal.vStr (combinedClasses (getVariant ps) (getSize ps) (getClassName ps))) := by
  simp only [attrValue, Button, List.reverse_cons, List.append_assoc]
  rw [List.lookup_append, lookup_restProps_reverse ps (by decide)]
  rfl

theorem attrValue_button_disabled (ps : Props) :
    attrValue "disabled" (Button ps) =
      some (PropVal.vBool (effectiveDisabled (getDisabled ps) (getIsLoading ps))) := by
  simp only [attrValue, Button, List.reverse_cons, List.append_assoc]
  rw [List.lookup_append, lookup_restProps_reverse ps (by decide)]
  rfl

/-- The props of a render that passes nothing but the required `children`. -/
def defaultProps : Props := [("children", PropVal.vNode 0)]

/-- C1: the composed style carried by the rendered node is the base fragment,
then the variant fragment, then the size fragment, then the override tokens,
concatenated in exactly that fixed order; when the override is the single
token "extra-token", the final fragment's last token is "extra-token". -/
theorem c1_style_composition_order :
    (∀ ps : Props, attrValue "className" (Button ps) =
        some (PropVal.vStr (combinedClasses (getVariant ps) (getSize ps) (getClassName ps))))
    ∧ (∀ (v : Variant) (s : Size) (className : String),
        tokensOf (combinedClasses v s className) =
          tokensOf baseClasses ++ tokensOf (buttonVariants v) ++ tokensOf (buttonSizes s)
            ++ tokensOf className)
    ∧ (∀ (v : Variant) (s : Size),
        (tokensOf (combinedClasses v s "extra-token")).getLast? = some "extra-token") := by
  refine ⟨attrValue_button_className, tokensOf_combinedClasses, ?_⟩
  intro v s
  rw [tokensOf_combinedClasses]
  have he : tokensOf "extra-token" = ["extra-token"] := by decide
  rw [he]
  simp [List.getLast?_append]

/-- C2: the effective-disabled flag on the rendered node is `disabled OR busy`
for all four boolean combinations, and nothing else influences it. -/
theorem c2_effective_disabled_or :
    (∀ ps : Props, attrValue "disabled" (Button ps) =
        some (PropVal.vBool (effectiveDisabled (getDisabled ps) (getIsLoading ps))))
    ∧ (∀ d b : Bool, effectiveDisabled d b = (d || b))
    ∧ (∀ ps₁ ps₂ : Props, getDisabled ps₁ = getDisabled ps₂ →
        getIsLoading ps₁ = getIsLoading ps₂ →
        attrValue "disabled" (Button ps₁) = attrValue "disabled" (Button ps₂)) := by
  refine ⟨attrValue_button_disabled, fun _ _ => rfl, ?_⟩
  intro ps₁ ps₂ h1 h2
  rw [attrValue_button_disabled, attrValue_button_disabled, h1, h2]

theorem c2_effective_disabled_or_witness :
    attrValue "disabled" (Button [("disabled", PropVal.vBool true)]) =
      attrValue "disabled" (Button [("disabled", PropVal.vBool true), ("id", PropVal.vStr "x")]) :=
  c2_effective_disabled_or.2.2 _ _ (by decide) (by decide)

/-- C3: when `disabled OR busy` holds, the activation callback is invoked zero
times no matter how many activation events are dispatched; when it does not
hold, each activation event invokes the attached callback exactly once. -/
theorem c3_activation_gating :
    ∀ (ps : Props) (events : Nat),
      (effectiveDisabled (getDisabled ps) (getIsLoading ps) = true →
        clickInvocations (Button ps) events = 0)
      ∧ (∀ h : Nat, effectiveDisabled (getDisabled ps) (getIsLoading ps) = false →
          attrValue "onClick" (Button ps) = some (PropVal.vHandler h) →
          clickInvocations (Button ps) events = events) := by
  intro ps events
  constructor
  · intro hd
    have hdis : attrValue "disabled" (Button ps) = some (PropVal.vBool true) := by
      rw [attrValue_button_disabled, hd]
    unfold clickInvocations
    rw [hdis]
    cases attrValue "onClick" (Button ps) with
    | none => rfl
    | some val => cases val <;> simp
  · intro h hd hoc
    unfold clickInvocations
    rw [hoc, attrValue_button_disabled, hd]
    simp

theorem c3_activation_gating_witness :
    clickInvocations (Button [("isLoading", PropVal.vBool true), ("onClick", PropVal.vHandler 7)]) 5 = 0
    ∧ clickInvocations (Button [("onClick", PropVal.vHandler 7)]) 5 = 5 :=
  ⟨(c3_activation_gating [("isLoading", PropVal.vBool true), ("onClick", PropVal.vHandler 7)] 5).1
      (by decide),
   (c3_activation_gating [("onClick", PropVal.vHandler 7)] 5).2 7 (by decide) (by decide)⟩

/-- C4: the rendered output contains the busy indicator fragment exactly when
`isLoading` is true. -/
theorem c4_spinner_iff_busy :
    ∀ ps : Props, RNode.spinner ∈ (Button ps).children ↔ getIsLoading ps = true := by
  intro ps
  simp only [Button]
  cases hb : getIsLoading ps with
  | true => simp
  | false =>
    simp only [Bool.false_eq_true, if_false, List.nil_append]
    cases hc : ps.lookup "children" <;> simp

theorem c4_spinner_iff_busy_witness :
    RNode.spinner ∈ (Button [("isLoading", PropVal.vBool true)]).children :=
  (c4_spinner_iff_busy [("isLoading", PropVal.vBool true)]).mpr (by decide)

/-- C5: the variant and size lookup tables are total over their closed
enumerations: every enumeration value retrieves exactly one fragment, each key
occurs exactly once, and the undefined fall-through is never reached. -/
theorem c5_resolver_totality :
    (∀ v : Variant, ∃! f : String, buttonVariantsObj.lookup v = some f)
    ∧ (∀ s : Size, ∃! f : String, buttonSizesObj.lookup s = some f)
    ∧ (buttonVariantsObj.map Prod.fst).Nodup
    ∧ (buttonSizesObj.map Prod.fst).Nodup := by
  refine ⟨?_, ?_, by decide, by decide⟩
  · intro v
    cases v <;> exact ⟨_, rfl, fun y hy => (Option.some.inj hy).symm⟩
  · intro s
    cases s <;> exact ⟨_, rfl, fun y hy => (Option.some.inj hy).symm⟩

theorem c5_resolver_totality_witness :
    buttonVariantsObj.lookup Variant.primary =
      some "bg-blue-600 text-white hover:bg-blue-700 focus:ring-blue-500" := by
  obtain ⟨f, hf, hu⟩ := c5_resolver_totality.1 Variant.primary
  have h2 := hu "bg-blue-600 text-white hover:bg-blue-700 focus:ring-blue-500" rfl
  rw [← h2] at hf
  exact hf

/-- C6: every variant maps to a non-empty fragment and distinct variants map
to distinct fragments; the same holds for sizes. -/
theorem c6_fragments_nonempty_distinct :
    (∀ v : Variant, buttonVariants v ≠ "")
    ∧ (∀ v w : Variant, buttonVariants v = buttonVariants w → v = w)
    ∧ (∀ s : Size, buttonSizes s ≠ "")
    ∧ (∀ s t : Size, buttonSizes s = buttonSizes t → s = t) := by
  decide

theorem c6_fragments_nonempty_distinct_witness :
    Variant.primary = Variant.primary ∧ Size.small = Size.small :=
  ⟨c6_fragments_nonempty_distinct.2.1 Variant.primary Variant.primary rfl,
   c6_fragments_nonempty_distinct.2.2.2 Size.small Size.small rfl⟩

/-- C7: a render with only the required children gets the defaults
variant=primary, size=medium, busy=false, disabled=false, empty override: the
composed style is `base ⧺ primaryFragment ⧺ mediumFragment` and the
effective-disabled flag is false. -/
theorem c7_defaults :
    getVariant defaultProps = Variant.primary
    ∧ getSize defaultProps = Size.medium
    ∧ getIsLoading defaultProps = false
    ∧ getDisabled defaultProps = false
    ∧ getClassName defaultProps = ""
    ∧ attrValue "className" (Button defaultProps) =
        some (PropVal.vStr (baseClasses ++ " " ++ buttonVariants Variant.primary
          ++ " " ++ buttonSizes Size.medium))
    ∧ attrValue "disabled" (Button defaultProps) = some (PropVal.vBool false) := by
  decide

/-- C8: every prop beyond the recognized construction parameters is forwarded
verbatim onto the rendered element, and the children content appears in the
output unchanged. -/
theorem c8_passthrough_and_children :
    ∀ (ps : Props) (v : PropVal),
      ((Button ps).attrs).drop 2 = ps.filter (fun kv => decide (kv.1 ∉ recognizedKeys))
      ∧ (ps.lookup "children" = some v → RNode.content v ∈ (Button ps).children) := by
  intro ps v
  constructor
  · rfl
  · intro h
    simp [Button, h]

theorem c8_passthrough_and_children_witness :
    ((Button [("children", PropVal.vNode 3), ("data-x", PropVal.vStr "y")]).attrs).drop 2
        = [("data-x", PropVal.vStr "y")]
    ∧ RNode.content (PropVal.vNode 3)
        ∈ (Button [("children", PropVal.vNode 3), ("data-x", PropVal.vStr "y")]).children := by
  have h := c8_passthrough_and_children
    [("children", PropVal.vNode 3), ("data-x", PropVal.vStr "y")] (PropVal.vNode 3)
  exact ⟨h.1.trans (by decide), h.2 (by decide)⟩

/-- C9: the whole render is a deterministic function of its props, and style
composition on identical inputs yields identical output. -/
theorem c9_render_deterministic :
    (∀ ps₁ ps₂ : Props, ps₁ = ps₂ → Button ps₁ = Button ps₂)
    ∧ (∀ (v : Variant) (s : Size) (c : String),
        combinedClasses v s c = combinedClasses v s c) :=
  ⟨fun _ _ h => congrArg Button h, fun _ _ _ => rfl⟩

theorem c9_render_deterministic_witness :
    Button [("isLoading", PropVal.vBool true)] = Button [("isLoading", PropVal.vBool true)] :=
  c9_render_deterministic.1 _ _ rfl

/-- C10: forwarded pass-through attributes can never overwrite the composed
class string or the effective-disabled flag, because the recognized keys are
extracted before the rest is spread. -/
theorem c10_no_attr_overwrite :
    ∀ ps : Props,
      attrValue "className" (Button ps) =
        some (PropVal.vStr (combinedClasses (getVariant ps) (getSize ps) (getClassName ps)))
      ∧ attrValue "disabled" (Button ps) =
        some (PropVal.vBool (effectiveDisabled (getDisabled ps) (getIsLoading ps)))
      ∧ (∀ kv ∈ restProps ps, kv.1 ≠ "className" ∧ kv.1 ≠ "disabled") := by
  intro ps
  refine ⟨attrValue_button_className ps, attrValue_button_disabled ps, ?_⟩
  intro kv hkv
  have h := restProps_not_recognized hkv
  constructor
  · intro he
    exact h (by rw [he]; decide)
  · intro he
    exact h (by rw [he]; decide)

theorem c10_no_attr_overwrite_witness :
    ("id", PropVal.vStr "k").1 ≠ "className" ∧ ("id", PropVal.vStr "k").1 ≠ "disabled" :=
  (c10_no_attr_overwrite [("className", PropVal.vStr "x"), ("id", PropVal.vStr "k")]).2.2
    ("id", PropVal.vStr "k") (by decide)

end ButtonLib

namespace ButtonLib

example : tokensOf "a  bc c" = ["a", "bc", "c"] := by decide

example :
    attrValue "disabled" (Button [("disabled", .vBool true), ("data-x", .vStr "1")])
      = some (.vBool true) := by decide

example :
    clickInvocations (Button [("onClick", .vHandler 7)]) 3 = 3 := by decide

example :
    clickInvocations (Button [("isLoading", .vBool true), ("onClick", .vHandler 7)]) 3
      = 0 := by decide

example : strTrim "  a b  " = "a b" := by decide

example : combinedClasses .primary .medium "" =
    baseClasses ++ " " ++ buttonVariants .primary ++ " " ++ buttonSizes .medium := by decide

end ButtonLib
